import Mathlib

/-!
Verification of the release-bot repository: a shallow embedding of the
pure cores of its services (repository discovery filtering, the dedup
ledger, the Telegram delivery client, the notification orchestrator,
the changelog generator, the poll scheduler and the repository
directory), with theorems checking the natural-language specification
against the code.

Sources embedded:
- `src/services/discovery.ts` : `matchesPattern`, `shouldIncludeRepo`
- `src/storage/database.ts`   : `isReleaseProcessed`, `markReleaseProcessed`,
  `upsertRepository`, `updateWebhookStatus`, `getRepositoriesByWebhookStatus`
- `src/utils/telegram.ts`     : `sendTelegramMessage` splitting, `sendSingleMessage` retry
- `src/services/notification.ts` : `sendReleaseNotification`
- `src/utils/github.ts`       : `generateChangelogFromCommits`
- `src/services/polling.ts`   : `pollRepositories` / `checkRepositoryForNewReleases`

JS strings are modelled as `List Char` where character-level behaviour
matters, and as `String` elsewhere.  Asynchronous effects (HTTP calls,
the SQLite database, timers) are modelled by explicit parameters for
call outcomes and by explicit state passing of the table contents.
-/

namespace ReleaseBot

/-! ### Glob matching (`src/services/discovery.ts`, `matchesPattern`)

The source compiles a glob pattern to a JavaScript regular expression by
`pattern.replace(/\*/g, '.*').replace(/\?/g, '.')` and matches it
anchored (`^...$`) and case-insensitively (flag `i`).  The translated
regex string therefore consists of `.` (any character other than a line
terminator — the regex has no `s` flag), `*` (Kleene star, produced
only right after a `.`), and the remaining pattern characters carried
over verbatim.  We embed this with a small regex interpreter for
exactly that fragment: atoms are the dot or a literal character
(matched case-insensitively), optionally starred.  Pattern characters
other than `*`, `?` and `.` are interpreted as literals by this
embedding, which is faithful to the JavaScript regex as long as the
pattern contains no other regex metacharacter. -/

/-- The JavaScript `LineTerminator` set, which the regex `.` excludes
when the `s` (dotAll) flag is absent: LF, CR, U+2028 LINE SEPARATOR and
U+2029 PARAGRAPH SEPARATOR. -/
def isLineTerminator (c : Char) : Bool :=
  c == '\n' || c == '\r' || c == '\u2028' || c == '\u2029'

/-- A regex atom of the translated pattern: the dot (any character
except a line terminator) or a literal character. -/
inductive RAtom where
  | anyChar : RAtom
  | lit : Char → RAtom
deriving DecidableEq

/-- A token of the translated regex: a single atom or a starred atom. -/
inductive RTok where
  | one : RAtom → RTok
  | star : RAtom → RTok
deriving DecidableEq

/-- Case-insensitive atom match (the source regex carries the `i` flag
but not the `s` flag, so the dot rejects line terminators). -/
def amatch : RAtom → Char → Bool
  | .anyChar, d => !isLineTerminator d
  | .lit c, d => c.toLower == d.toLower

/-- Backtracking search for a starred atom: try to hand the rest of the
string to the continuation `k`, or consume one more character matching
the atom. -/
def starMatch (a : RAtom) (k : List Char → Bool) : List Char → Bool
  | [] => k []
  | c :: cs => k (c :: cs) || (amatch a c && starMatch a k cs)

/-- Anchored match of a token list against a character list (the source
regex is wrapped in `^...$`). -/
def rmatch : List RTok → List Char → Bool
  | [] => fun s => s.isEmpty
  | .one a :: ts => fun s =>
    match s with
    | [] => false
    | c :: cs => amatch a c && rmatch ts cs
  | .star a :: ts => starMatch a (rmatch ts)

/-- The character-level translation performed by
`pattern.replace(/\*/g, '.*').replace(/\?/g, '.')`. -/
def globTranslate : List Char → List Char
  | [] => []
  | c :: rest =>
    (if c == '*' then ['.', '*'] else if c == '?' then ['.'] else [c]) ++ globTranslate rest

/-- Atom denoted by one regex character: `.` is "any character",
everything else a literal. -/
def catom (c : Char) : RAtom := if c == '.' then .anyChar else .lit c

/-- Parse the translated regex string into tokens.  In strings produced
by `globTranslate` a `*` only ever follows a `.`. -/
def parseRegex : List Char → List RTok
  | [] => []
  | [c] => [.one (catom c)]
  | c :: d :: rest =>
    if d = '*' then .star (catom c) :: parseRegex rest
    else .one (catom c) :: parseRegex (d :: rest)

/-- `matchesPattern(repoName, patterns)` from `src/services/discovery.ts`:
empty pattern list is `false`, a literal `*` pattern always matches, any
other pattern is compiled to the anchored case-insensitive regex above. -/
def matchesPattern (repoName : String) (patterns : List String) : Bool :=
  if patterns.isEmpty then false
  else patterns.any fun pat =>
    if pat == "*" then true
    else rmatch (parseRegex (globTranslate pat.data)) repoName.data

/-- Modelled from the spec's words (for comparison with the code, claim
C3): a shell-style glob in which `*` matches any run of characters, `?`
matches exactly one character, and every other character matches only
itself (case-insensitively), anchored over the whole name. -/
def specGlob : List Char → List Char → Bool
  | [] => fun s => s.isEmpty
  | p :: ps => fun s =>
    if p == '*' then starMatch .anyChar (specGlob ps) s
    else
      match s with
      | [] => false
      | c :: cs => (if p == '?' then true else p.toLower == c.toLower) && specGlob ps cs

/-- Characters that are special in a JavaScript regular expression other
than `*` and `?` (which the glob translation rewrites).  Patterns free of
these are exactly the ones for which the compiled regex treats every
non-wildcard character literally. -/
def regexSpecial : List Char := ['.', '+', '(', ')', '[', ']', '\x7b', '\x7d', '^', '$', '|', '\\']

/-! ### Discovery filtering (`src/services/discovery.ts`, `shouldIncludeRepo`) -/

/-- The global filter configuration `config.filters`. -/
structure Filters where
  includeArchived : Bool
  includeForks : Bool
  blocklist : List String
  allowlist : List String

/-- A profile's repository pattern lists (`profile.include` / `profile.exclude`). -/
structure Profile where
  includePatterns : List String
  excludePatterns : List String

/-- The repository fields destructured by `shouldIncludeRepo`. -/
structure GitHubRepoInfo where
  name : String
  archived : Bool
  fork : Bool

/-- `shouldIncludeRepo(repo, profile)` from `src/services/discovery.ts`,
with the global `config.filters` made an explicit argument.  Each early
`return false` of the source becomes one `if` stage; the source guards
the pattern checks by a non-emptiness test, rendered here as `&&`. -/
def shouldIncludeRepo (filters : Filters) (repo : GitHubRepoInfo) (profile : Profile) : Bool :=
  if repo.archived && !filters.includeArchived then false
  else if repo.fork && !filters.includeForks then false
  else if filters.blocklist.length > 0 && matchesPattern repo.name filters.blocklist then false
  else if filters.allowlist.length > 0 && !matchesPattern repo.name filters.allowlist then false
  else if profile.excludePatterns.length > 0 && matchesPattern repo.name profile.excludePatterns then
    false
  else if profile.includePatterns.length > 0 then matchesPattern repo.name profile.includePatterns
  else true

/-! ### Lemmas relating the compiled regex to shell-glob semantics -/

theorem globTranslate_head_ne_star (ps : List Char) : (globTranslate ps).head? ≠ some '*' := by
  cases ps with
  | nil => simp [globTranslate]
  | cons c rest =>
    by_cases h1 : c = '*'
    · simp [globTranslate, h1]
    · by_cases h2 : c = '?' <;> simp [globTranslate, h1, h2]

theorem parseRegex_cons_ne_star (c : Char) (rest : List Char) (h : rest.head? ≠ some '*') :
    parseRegex (c :: rest) = .one (catom c) :: parseRegex rest := by
  cases rest with
  | nil => rfl
  | cons d ds =>
    have hd : d ≠ '*' := by simpa using h
    simp [parseRegex, hd]

theorem parseRegex_translate_star (ps : List Char) :
    parseRegex (globTranslate ('*' :: ps)) = .star .anyChar :: parseRegex (globTranslate ps) := by
  simp [globTranslate, parseRegex, catom]

theorem parseRegex_translate_qmark (ps : List Char) :
    parseRegex (globTranslate ('?' :: ps)) = .one .anyChar :: parseRegex (globTranslate ps) := by
  have h := parseRegex_cons_ne_star '.' (globTranslate ps) (globTranslate_head_ne_star ps)
  simpa [globTranslate, catom] using h

theorem parseRegex_translate_lit (c : Char) (hs : c ≠ '*') (hq : c ≠ '?') (ps : List Char) :
    parseRegex (globTranslate (c :: ps)) = .one (catom c) :: parseRegex (globTranslate ps) := by
  have h := parseRegex_cons_ne_star c (globTranslate ps) (globTranslate_head_ne_star ps)
  simpa [globTranslate, hs, hq] using h

theorem starMatch_congr (a : RAtom) (k k' : List Char → Bool) :
    ∀ s : List Char, (∀ t, t <:+ s → k t = k' t) → starMatch a k s = starMatch a k' s := by
  intro s
  induction s with
  | nil =>
    intro h
    simpa [starMatch] using h [] (List.suffix_refl _)
  | cons c cs ihs =>
    intro h
    simp only [starMatch]
    rw [h (c :: cs) (List.suffix_refl _),
      ihs fun t ht => h t (ht.trans (List.suffix_cons c cs))]

/-- On patterns free of regex metacharacters (other than the rewritten
`*` and `?`) and names free of line terminators, the compiled regex
agrees with the spec's shell-glob semantics.  (On a name containing a
line terminator the compiled `.`/`.*` reject where the glob's `?`/`*`
accept, see the C3 amendment.) -/
theorem rmatch_translate_eq_specGlob :
    ∀ (p : List Char), (∀ c ∈ p, c ∉ regexSpecial) →
      ∀ s, (∀ c ∈ s, isLineTerminator c = false) →
        rmatch (parseRegex (globTranslate p)) s = specGlob p s := by
  intro p
  induction p with
  | nil => intro _ s _; rfl
  | cons c ps ih =>
    intro hsafe
    have hps : ∀ a ∈ ps, a ∉ regexSpecial := fun a ha => hsafe a (List.mem_cons_of_mem _ ha)
    by_cases hstar : c = '*'
    · subst hstar
      intro s hs
      rw [parseRegex_translate_star]
      have hgoal : starMatch .anyChar (rmatch (parseRegex (globTranslate ps))) s =
          starMatch .anyChar (specGlob ps) s := by
        apply starMatch_congr
        intro t ht
        exact ih hps t fun x hx => hs x (ht.subset hx)
      simpa [rmatch, specGlob] using hgoal
    · by_cases hq : c = '?'
      · subst hq
        intro s hs
        rw [parseRegex_translate_qmark]
        cases s with
        | nil => simp [rmatch, specGlob]
        | cons c' cs =>
          have hc' : isLineTerminator c' = false := hs c' (List.mem_cons_self _ _)
          have hcs : ∀ x ∈ cs, isLineTerminator x = false :=
            fun x hx => hs x (List.mem_cons_of_mem _ hx)
          simp [rmatch, specGlob, amatch, hc', ih hps cs hcs]
      · intro s hs
        have hdot : c ≠ '.' := by
          intro hcd
          exact hsafe c (List.mem_cons_self c ps) (by rw [hcd]; simp [regexSpecial])
        rw [parseRegex_translate_lit c hstar hq]
        cases s with
        | nil => simp [rmatch, specGlob, hstar]
        | cons c' cs =>
          have hcs : ∀ x ∈ cs, isLineTerminator x = false :=
            fun x hx => hs x (List.mem_cons_of_mem _ hx)
          simp [rmatch, specGlob, amatch, catom, hdot, hstar, hq, ih hps cs hcs]

/-- C3 fails as stated: the code leaves `.` (and other regex
metacharacters) unescaped, so pattern `a.b` matches the name `acb`,
while the spec's glob semantics (every character other than `*` and `?`
matches only itself) rejects it. -/
theorem C3_counterexample :
    matchesPattern "acb" ["a.b"] = true ∧ specGlob "a.b".data "acb".data = false :=
  ⟨by decide, by decide⟩

/-- C3 (amended): `matchesPattern` returns `false` for every name when
the pattern list is empty; a literal `*` pattern matches every name
including the empty string; `gpt*` matches `gpt-4` (also
case-insensitively, `GPT-4`) and does not match `my-gpt`; a single
pattern other than the literal `*` is matched by the compiled anchored
case-insensitive regex; that regex agrees with the anchored
case-insensitive full-string glob (`*` any run, `?` exactly one
character, other characters only themselves) whenever the pattern
contains no regex metacharacter and the name contains no line
terminator; and a `.` in the pattern keeps its regex meaning: without
the `s` flag it matches any single character other than a line
terminator — so `a.b` accepts `a<c>b` for every non-line-terminator
`c` but rejects the newline. -/
theorem C3_matchesPattern_amended :
    (∀ name : String, matchesPattern name [] = false)
    ∧ (∀ name : String, matchesPattern name ["*"] = true)
    ∧ matchesPattern "gpt-4" ["gpt*"] = true
    ∧ matchesPattern "GPT-4" ["gpt*"] = true
    ∧ matchesPattern "my-gpt" ["gpt*"] = false
    ∧ (∀ pat name : String, pat ≠ "*" →
        matchesPattern name [pat] = rmatch (parseRegex (globTranslate pat.data)) name.data)
    ∧ (∀ pat name : String, (∀ c ∈ pat.data, c ∉ regexSpecial) →
        (∀ c ∈ name.data, isLineTerminator c = false) →
        rmatch (parseRegex (globTranslate pat.data)) name.data = specGlob pat.data name.data)
    ∧ (∀ c : Char, isLineTerminator c = false →
        rmatch (parseRegex (globTranslate "a.b".data)) ['a', c, 'b'] = true)
    ∧ rmatch (parseRegex (globTranslate "a.b".data)) ['a', '\n', 'b'] = false := by
  refine ⟨?_, ?_, by decide, by decide, by decide, ?_, ?_, ?_, by decide⟩
  · intro name; rfl
  · intro name; rfl
  · intro pat name hne
    simp [matchesPattern, hne]
  · intro pat name hsafe hname
    exact rmatch_translate_eq_specGlob pat.data hsafe name.data hname
  · intro c hc
    simp [globTranslate, parseRegex, catom, rmatch, amatch, hc]

/-- Witness for C3 (amended), at pattern `gpt?` and name `gpt-5`. -/
theorem C3_matchesPattern_amended_witness :
    "gpt?" ≠ "*"
    ∧ matchesPattern "gpt-5" ["gpt?"] =
        rmatch (parseRegex (globTranslate "gpt?".data)) "gpt-5".data
    ∧ rmatch (parseRegex (globTranslate "gpt?".data)) "gpt-5".data =
        specGlob "gpt?".data "gpt-5".data
    ∧ isLineTerminator 'x' = false
    ∧ rmatch (parseRegex (globTranslate "a.b".data)) ['a', 'x', 'b'] = true :=
  ⟨by decide,
   C3_matchesPattern_amended.2.2.2.2.2.1 "gpt?" "gpt-5" (by decide),
   C3_matchesPattern_amended.2.2.2.2.2.2.1 "gpt?" "gpt-5" (by decide) (by decide),
   by decide,
   C3_matchesPattern_amended.2.2.2.2.2.2.2.1 'x' (by decide)⟩

/-- C2: `shouldIncludeRepo` applies the inclusion rules in the spec's
fixed precedence order with the first matching rule deciding: archived
exclusion, fork exclusion, global blocklist, global allowlist, profile
exclude, profile include, default include; and for `codex-docs` with a
global blocklist `*-docs` and profile include `*`, the blocklist fires
before the include list is consulted. -/
theorem C2_shouldIncludeRepo_precedence (filters : Filters) (repo : GitHubRepoInfo)
    (profile : Profile) :
    (repo.archived = true → filters.includeArchived = false →
      shouldIncludeRepo filters repo profile = false)
    ∧ ((repo.archived && !filters.includeArchived) = false →
        repo.fork = true → filters.includeForks = false →
        shouldIncludeRepo filters repo profile = false)
    ∧ ((repo.archived && !filters.includeArchived) = false →
       (repo.fork && !filters.includeForks) = false →
       (filters.blocklist.length > 0 && matchesPattern repo.name filters.blocklist) = true →
        shouldIncludeRepo filters repo profile = false)
    ∧ ((repo.archived && !filters.includeArchived) = false →
       (repo.fork && !filters.includeForks) = false →
       (filters.blocklist.length > 0 && matchesPattern repo.name filters.blocklist) = false →
       (filters.allowlist.length > 0 && !matchesPattern repo.name filters.allowlist) = true →
        shouldIncludeRepo filters repo profile = false)
    ∧ ((repo.archived && !filters.includeArchived) = false →
       (repo.fork && !filters.includeForks) = false →
       (filters.blocklist.length > 0 && matchesPattern repo.name filters.blocklist) = false →
       (filters.allowlist.length > 0 && !matchesPattern repo.name filters.allowlist) = false →
       (profile.excludePatterns.length > 0 &&
         matchesPattern repo.name profile.excludePatterns) = true →
        shouldIncludeRepo filters repo profile = false)
    ∧ ((repo.archived && !filters.includeArchived) = false →
       (repo.fork && !filters.includeForks) = false →
       (filters.blocklist.length > 0 && matchesPattern repo.name filters.blocklist) = false →
       (filters.allowlist.length > 0 && !matchesPattern repo.name filters.allowlist) = false →
       (profile.excludePatterns.length > 0 &&
         matchesPattern repo.name profile.excludePatterns) = false →
        0 < profile.includePatterns.length →
        shouldIncludeRepo filters repo profile = matchesPattern repo.name profile.includePatterns)
    ∧ ((repo.archived && !filters.includeArchived) = false →
       (repo.fork && !filters.includeForks) = false →
       (filters.blocklist.length > 0 && matchesPattern repo.name filters.blocklist) = false →
       (filters.allowlist.length > 0 && !matchesPattern repo.name filters.allowlist) = false →
       (profile.excludePatterns.length > 0 &&
         matchesPattern repo.name profile.excludePatterns) = false →
        profile.includePatterns.length = 0 →
        shouldIncludeRepo filters repo profile = true)
    ∧ shouldIncludeRepo ⟨false, false, ["*-docs"], []⟩ ⟨"codex-docs", false, false⟩
        ⟨["*"], []⟩ = false := by
  refine ⟨?_, ?_, ?_, ?_, ?_, ?_, ?_, by decide⟩
  · intro h1 h2; simp [shouldIncludeRepo, h1, h2]
  · intro h1 h2 h3; simp [shouldIncludeRepo, h1, h2, h3]
  · intro h1 h2 h3; simp only [shouldIncludeRepo, h1, h2, h3]; simp
  · intro h1 h2 h3 h4; simp only [shouldIncludeRepo, h1, h2, h3, h4]; simp
  · intro h1 h2 h3 h4 h5; simp only [shouldIncludeRepo, h1, h2, h3, h4, h5]; simp
  · intro h1 h2 h3 h4 h5 h6
    simp only [shouldIncludeRepo, h1, h2, h3, h4, h5]
    simp [h6]
  · intro h1 h2 h3 h4 h5 h6
    simp only [shouldIncludeRepo, h1, h2, h3, h4, h5]
    simp [h6]

/-- Witness for C2: the pattern-precedence example — `codex-docs`,
archived and fork both false, global blocklist `*-docs`, profile
include `*` — is excluded by the blocklist rule. -/
theorem C2_shouldIncludeRepo_precedence_witness :
    shouldIncludeRepo ⟨false, false, ["*-docs"], []⟩ ⟨"codex-docs", false, false⟩
      ⟨["*"], []⟩ = false :=
  (C2_shouldIncludeRepo_precedence ⟨false, false, ["*-docs"], []⟩
    ⟨"codex-docs", false, false⟩ ⟨["*"], []⟩).2.2.1 (by decide) (by decide) (by decide)

/-! ### The Dedup Ledger (`src/storage/database.ts`, table `processed_releases`)

The table has columns `release_id`, `repo_full_name`, `tag_name`,
`source` and a `UNIQUE(release_id, repo_full_name)` constraint; it is
modelled as the list of its rows in insertion order.
`markReleaseProcessed` runs `INSERT OR IGNORE`, which under the unique
constraint appends the row exactly when no row with the same
`(release_id, repo_full_name)` pair exists, and `isReleaseProcessed`
runs `SELECT 1 ... WHERE release_id = ? AND repo_full_name = ?`. -/

/-- A row of `processed_releases`. -/
structure LEntry where
  release_id : Nat
  repo_full_name : String
  tag_name : String
  source : String
deriving DecidableEq

/-- `isReleaseProcessed(releaseId, repoFullName)`. -/
def isReleaseProcessed (ledger : List LEntry) (releaseId : Nat) (repoFullName : String) : Bool :=
  ledger.any fun e => e.release_id == releaseId && e.repo_full_name == repoFullName

/-- `markReleaseProcessed(releaseId, repoFullName, tagName, source)`:
`INSERT OR IGNORE` under `UNIQUE(release_id, repo_full_name)`. -/
def markReleaseProcessed (ledger : List LEntry) (releaseId : Nat) (repoFullName : String)
    (tagName : String) (source : String) : List LEntry :=
  if isReleaseProcessed ledger releaseId repoFullName then ledger
  else ledger ++ [⟨releaseId, repoFullName, tagName, source⟩]

/-- Number of ledger rows for a given `(release id, repository full name)` pair. -/
def countEntries (ledger : List LEntry) (releaseId : Nat) (repoFullName : String) : Nat :=
  (ledger.filter fun e => e.release_id == releaseId && e.repo_full_name == repoFullName).length

/-! ### The webhook handler (`src/handlers/releaseHandler.ts`, `handleReleaseEvent`)

The handler's HTTP effects are modelled by the returned status code and
message; whether the Delivery Client was reached is recorded in
`notifyInvoked` (`sendReleaseNotification` always reaches
`sendTelegramMessage`, so invoking the orchestrator invokes the
Delivery Client).  The downstream delivery outcome is the `deliveryOk`
parameter: on success the orchestrator writes the ledger entry, on
failure the handler's catch block answers 500. -/

/-- The `release` and `repository` fields the handler destructures. -/
structure ReleasePayload where
  releaseId : Nat
  repoFullName : String
  tagName : String
deriving DecidableEq

/-- Observable outcome of one `handleReleaseEvent` call. -/
structure HandlerResponse where
  status : Nat
  message : String
  notifyInvoked : Bool
  ledger : List LEntry
deriving DecidableEq

/-- `handleReleaseEvent(req, res)`: event-type gate, action gate,
payload validation, duplicate pre-check against the ledger, then the
notification path (which marks the release as processed on delivery
success). -/
def handleReleaseEvent (eventType action : String) (payload : Option ReleasePayload)
    (ledger : List LEntry) (deliveryOk : Bool) : HandlerResponse :=
  if eventType ≠ "release" then ⟨202, "Event ignored (not a release)", false, ledger⟩
  else if action ≠ "published" then ⟨202, "Event ignored (not published)", false, ledger⟩
  else
    match payload with
    | none => ⟨400, "Invalid payload", false, ledger⟩
    | some p =>
      if isReleaseProcessed ledger p.releaseId p.repoFullName then
        ⟨200, "Duplicate event, already processed", false, ledger⟩
      else if deliveryOk then
        ⟨200, "Release notification sent successfully", true,
          markReleaseProcessed ledger p.releaseId p.repoFullName p.tagName "webhook"⟩
      else ⟨500, "Internal server error", true, ledger⟩

/-- C1: `markReleaseProcessed` is an insert-if-absent that never updates
an existing row (on a ledgered pair it is the identity), it is
idempotent, after it runs the pair has exactly one ledger row (given the
uniqueness invariant), and the handler's pre-check answers an
already-ledgered pair with the 200 duplicate response without invoking
the Delivery Client and without touching the ledger. -/
theorem C1_dedup_idempotent (ledger : List LEntry) (releaseId : Nat)
    (repoFullName tagName tagName' source source' : String) (payload : ReleasePayload)
    (deliveryOk : Bool) :
    (isReleaseProcessed ledger releaseId repoFullName = true →
      markReleaseProcessed ledger releaseId repoFullName tagName source = ledger)
    ∧ markReleaseProcessed (markReleaseProcessed ledger releaseId repoFullName tagName source)
        releaseId repoFullName tagName' source' =
        markReleaseProcessed ledger releaseId repoFullName tagName source
    ∧ (countEntries ledger releaseId repoFullName ≤ 1 →
        countEntries (markReleaseProcessed ledger releaseId repoFullName tagName source)
          releaseId repoFullName = 1)
    ∧ (isReleaseProcessed ledger payload.releaseId payload.repoFullName = true →
        handleReleaseEvent "release" "published" (some payload) ledger deliveryOk =
          ⟨200, "Duplicate event, already processed", false, ledger⟩) := by
  refine ⟨?_, ?_, ?_, ?_⟩
  · intro h; simp [markReleaseProcessed, h]
  · by_cases h : isReleaseProcessed ledger releaseId repoFullName = true
    · simp [markReleaseProcessed, h]
    · have h' : isReleaseProcessed (ledger ++ [⟨releaseId, repoFullName, tagName, source⟩])
          releaseId repoFullName = true := by
        simp [isReleaseProcessed]
      simp [markReleaseProcessed, h, h']
  · intro hle
    by_cases h : isReleaseProcessed ledger releaseId repoFullName = true
    · have h1 : 1 ≤ countEntries ledger releaseId repoFullName := by
        rcases List.any_eq_true.mp h with ⟨e, he, hpe⟩
        have : e ∈ ledger.filter fun e =>
            e.release_id == releaseId && e.repo_full_name == repoFullName :=
          List.mem_filter.mpr ⟨he, hpe⟩
        have := List.length_pos.mpr (List.ne_nil_of_mem this)
        simpa [countEntries] using this
      have : countEntries ledger releaseId repoFullName = 1 := le_antisymm hle h1
      simpa [markReleaseProcessed, h] using this
    · have hnil : (ledger.filter fun e =>
          e.release_id == releaseId && e.repo_full_name == repoFullName) = [] := by
        rw [List.filter_eq_nil_iff]
        intro e he hpe
        exact h (List.any_eq_true.mpr ⟨e, he, hpe⟩)
      simp [markReleaseProcessed, h, countEntries, List.filter_append, hnil]
  · intro h
    simp [handleReleaseEvent, h]

/-- Witness for C1, on a one-row ledger that already contains the pair
`(7, "octo/hello")`. -/
theorem C1_dedup_idempotent_witness :
    markReleaseProcessed [⟨7, "octo/hello", "v1.0.0", "webhook"⟩] 7 "octo/hello" "v1.0.0"
        "polling" = [⟨7, "octo/hello", "v1.0.0", "webhook"⟩]
    ∧ handleReleaseEvent "release" "published" (some ⟨7, "octo/hello", "v1.0.0"⟩)
        [⟨7, "octo/hello", "v1.0.0", "webhook"⟩] true =
        ⟨200, "Duplicate event, already processed", false,
          [⟨7, "octo/hello", "v1.0.0", "webhook"⟩]⟩ :=
  ⟨(C1_dedup_idempotent [⟨7, "octo/hello", "v1.0.0", "webhook"⟩] 7 "octo/hello" "v1.0.0" "x"
      "polling" "y" ⟨7, "octo/hello", "v1.0.0"⟩ true).1 (by decide),
   (C1_dedup_idempotent [⟨7, "octo/hello", "v1.0.0", "webhook"⟩] 7 "octo/hello" "v1.0.0" "x"
      "polling" "y" ⟨7, "octo/hello", "v1.0.0"⟩ true).2.2.2 (by decide)⟩

/-! ### The Delivery Client (`src/utils/telegram.ts`)

Message splitting in `sendTelegramMessage` is modelled over `List Char`
(one JS string index per list position).  The constants are the
source's `MAX_MESSAGE_LENGTH`, `MAX_RETRIES` and `RETRY_DELAY`. -/

def MAX_MESSAGE_LENGTH : Nat := 4096

def MAX_RETRIES : Nat := 3

def RETRY_DELAY : Nat := 1000

/-- Largest `i < n` with `p i`, scanning left to right and keeping the
last hit (the backward search of `String.prototype.lastIndexOf`). -/
def lastIdxAux (p : Nat → Bool) (n : Nat) : Option Nat :=
  (List.range n).foldl (fun acc i => if p i then some i else acc) none

/-- `remaining.lastIndexOf('\n', fromIndex)`: the largest index at most
`fromIndex` holding a newline, `none` for JavaScript's `-1`. -/
def lastIndexOfNl (s : List Char) (fromIndex : Nat) : Option Nat :=
  lastIdxAux (fun i => s.getD i ' ' == '\n') (fromIndex + 1)

/-- The split index chosen for one chunk: the found newline index unless
it is missing or in the first half of the chunk, in which case a hard
split at the limit (`splitIndex === -1 || splitIndex < MAX_MESSAGE_LENGTH / 2`). -/
def splitIndexOf (remaining : List Char) : Nat :=
  match lastIndexOfNl remaining MAX_MESSAGE_LENGTH with
  | none => MAX_MESSAGE_LENGTH
  | some j => if j < MAX_MESSAGE_LENGTH / 2 then MAX_MESSAGE_LENGTH else j

theorem splitIndexOf_pos (r : List Char) : 0 < splitIndexOf r := by
  unfold splitIndexOf
  cases lastIndexOfNl r MAX_MESSAGE_LENGTH with
  | none => simp [MAX_MESSAGE_LENGTH]
  | some j =>
    simp only [MAX_MESSAGE_LENGTH]
    split
    · omega
    · rename_i hj
      omega

theorem lastIdxAux_succ (p : Nat → Bool) (n : Nat) :
    lastIdxAux p (n + 1) = if p n then some n else lastIdxAux p n := by
  simp [lastIdxAux, List.range_succ, List.foldl_append]

theorem lastIdxAux_some (p : Nat → Bool) :
    ∀ n j, lastIdxAux p n = some j →
      j < n ∧ p j = true ∧ ∀ k, j < k → k < n → p k = false := by
  intro n
  induction n with
  | zero => intro j h; simp [lastIdxAux] at h
  | succ n ih =>
    intro j h
    rw [lastIdxAux_succ] at h
    by_cases hp : p n = true
    · rw [if_pos hp] at h
      cases h
      exact ⟨Nat.lt_succ_self n, hp, fun k hk1 hk2 => absurd hk2 (by omega)⟩
    · rw [if_neg hp] at h
      obtain ⟨h1, h2, h3⟩ := ih j h
      refine ⟨Nat.lt_succ_of_lt h1, h2, fun k hk1 hk2 => ?_⟩
      by_cases hkn : k = n
      · subst hkn; exact Bool.not_eq_true _ ▸ eq_false_of_ne_true hp
      · exact h3 k hk1 (by omega)

theorem lastIdxAux_none (p : Nat → Bool) :
    ∀ n, lastIdxAux p n = none → ∀ k, k < n → p k = false := by
  intro n
  induction n with
  | zero => intro _ k hk; omega
  | succ n ih =>
    intro h k hk
    rw [lastIdxAux_succ] at h
    by_cases hp : p n = true
    · rw [if_pos hp] at h; cases h
    · rw [if_neg hp] at h
      by_cases hkn : k = n
      · subst hkn; exact eq_false_of_ne_true hp
      · exact ih h k (by omega)

theorem splitIndexOf_le (r : List Char) : splitIndexOf r ≤ MAX_MESSAGE_LENGTH := by
  unfold splitIndexOf
  cases h : lastIndexOfNl r MAX_MESSAGE_LENGTH with
  | none => simp
  | some j =>
    have hj := (lastIdxAux_some _ _ _ h).1
    by_cases hlt : j < MAX_MESSAGE_LENGTH / 2 <;> simp [hlt] <;> omega

/-- The chosen split index is either the last newline at or before the
limit, lying in the second half of the chunk, or — when no such newline
exists — exactly the limit. -/
theorem splitIndexOf_spec (r : List Char) :
    (∃ j, MAX_MESSAGE_LENGTH / 2 ≤ j ∧ j ≤ MAX_MESSAGE_LENGTH ∧ r.getD j ' ' = '\n'
       ∧ (∀ k, j < k → k ≤ MAX_MESSAGE_LENGTH → r.getD k ' ' ≠ '\n') ∧ splitIndexOf r = j)
    ∨ (splitIndexOf r = MAX_MESSAGE_LENGTH
       ∧ ∀ j, j ≤ MAX_MESSAGE_LENGTH → r.getD j ' ' = '\n' → j < MAX_MESSAGE_LENGTH / 2) := by
  cases h : lastIndexOfNl r MAX_MESSAGE_LENGTH with
  | none =>
    right
    constructor
    · simp [splitIndexOf, h]
    · intro j hj hnl
      have hfalse : (r.getD j ' ' == '\n') = false := lastIdxAux_none _ _ h j (by omega)
      rw [hnl] at hfalse
      simp at hfalse
  | some j =>
    obtain ⟨h1, h2, h3⟩ := lastIdxAux_some _ _ _ h
    have hnl : r.getD j ' ' = '\n' := by simpa using h2
    by_cases hlt : j < MAX_MESSAGE_LENGTH / 2
    · right
      constructor
      · simp [splitIndexOf, h, hlt]
      · intro j' hj' hnl'
        by_cases hje : j' ≤ j
        · omega
        · have hfalse : (r.getD j' ' ' == '\n') = false := h3 j' (by omega) (by omega)
          rw [hnl'] at hfalse
          simp at hfalse
    · left
      refine ⟨j, by omega, by omega, hnl, fun k hk1 hk2 => ?_, by simp [splitIndexOf, h, hlt]⟩
      intro hknl
      have hfalse : (r.getD k ' ' == '\n') = false := h3 k hk1 (by omega)
      rw [hknl] at hfalse
      simp at hfalse

/-- The splitting loop of `sendTelegramMessage`: push the whole
remainder once it fits, otherwise cut at the chosen split index and
continue on the rest. -/
def splitMessageParts (remaining : List Char) : List (List Char) :=
  if remaining.length = 0 then []
  else if remaining.length ≤ MAX_MESSAGE_LENGTH then [remaining]
  else
    remaining.take (splitIndexOf remaining) ::
      splitMessageParts (remaining.drop (splitIndexOf remaining))
termination_by remaining.length
decreasing_by
  have hpos := splitIndexOf_pos remaining
  simp only [List.length_drop]
  omega

/-- `sendTelegramMessage({text})`, seen through its observable send
sequence: the list of texts handed to `sendSingleMessage`, in order. -/
def sendTelegramMessage (text : List Char) : List (List Char) :=
  if text.length > MAX_MESSAGE_LENGTH then splitMessageParts text else [text]

theorem splitMessageParts_join_aux :
    ∀ n (r : List Char), r.length ≤ n → (splitMessageParts r).join = r := by
  intro n
  induction n with
  | zero =>
    intro r h
    have : r = [] := List.length_eq_zero.mp (by omega)
    subst this
    simp [splitMessageParts]
  | succ n ih =>
    intro r h
    unfold splitMessageParts
    by_cases h0 : r.length = 0
    · simp [h0, List.length_eq_zero.mp h0]
    · by_cases hfit : r.length ≤ MAX_MESSAGE_LENGTH
      · simp [h0, hfit]
      · have hpos := splitIndexOf_pos r
        have hrec := ih (r.drop (splitIndexOf r)) (by simp [List.length_drop]; omega)
        simp [h0, hfit, hrec]

theorem splitMessageParts_join (r : List Char) : (splitMessageParts r).join = r :=
  splitMessageParts_join_aux r.length r (le_refl _)

theorem splitMessageParts_le :
    ∀ n (r : List Char), r.length ≤ n →
      ∀ p ∈ splitMessageParts r, p.length ≤ MAX_MESSAGE_LENGTH := by
  intro n
  induction n with
  | zero =>
    intro r h p hp
    have : r = [] := List.length_eq_zero.mp (by omega)
    subst this
    simp [splitMessageParts] at hp
  | succ n ih =>
    intro r h p hp
    by_cases h0 : r.length = 0
    · rw [splitMessageParts] at hp
      simp [h0] at hp
    · by_cases hfit : r.length ≤ MAX_MESSAGE_LENGTH
      · rw [splitMessageParts] at hp
        simp [h0, hfit] at hp
        subst hp
        exact hfit
      · have hsplit : splitMessageParts r =
            r.take (splitIndexOf r) :: splitMessageParts (r.drop (splitIndexOf r)) := by
          rw [splitMessageParts]
          simp [h0, hfit]
        rw [hsplit] at hp
        rcases List.mem_cons.mp hp with hhead | htail
        · have := splitIndexOf_le r
          rw [hhead]
          simp [List.length_take]
          omega
        · exact ih (r.drop (splitIndexOf r))
            (by simp [List.length_drop]; have := splitIndexOf_pos r; omega) p htail

theorem splitMessageParts_boundary :
    ∀ n (r : List Char), r.length ≤ n →
      ∀ i, i + 1 < (splitMessageParts r).length →
        MAX_MESSAGE_LENGTH < (((splitMessageParts r).drop i).join).length
        ∧ (splitMessageParts r).getD i [] =
            (((splitMessageParts r).drop i).join).take
              (splitIndexOf (((splitMessageParts r).drop i).join)) := by
  intro n
  induction n with
  | zero =>
    intro r h i hi
    have : r = [] := List.length_eq_zero.mp (by omega)
    subst this
    simp [splitMessageParts] at hi
  | succ n ih =>
    intro r h i hi
    by_cases h0 : r.length = 0
    · rw [splitMessageParts] at hi
      simp [h0] at hi
    · by_cases hfit : r.length ≤ MAX_MESSAGE_LENGTH
      · rw [splitMessageParts] at hi
        simp [h0, hfit] at hi
      · have hsplit : splitMessageParts r =
            r.take (splitIndexOf r) :: splitMessageParts (r.drop (splitIndexOf r)) := by
          rw [splitMessageParts]
          simp [h0, hfit]
        cases i with
        | zero =>
          rw [hsplit]
          simp only [List.drop_zero, List.getD]
          rw [← hsplit, splitMessageParts_join r]
          refine ⟨by omega, ?_⟩
          rw [hsplit]
          simp
        | succ i' =>
          rw [hsplit]
          simp only [List.drop_succ_cons, List.getD_cons_succ]
          apply ih (r.drop (splitIndexOf r))
            (by simp [List.length_drop]; have := splitIndexOf_pos r; omega)
          rw [hsplit] at hi
          simpa using hi

/-- C4: for a text longer than 4096 characters, `sendTelegramMessage`
sends exactly the chunks of the splitting loop, in order; every chunk is
at most 4096 characters long; concatenating the chunks in order gives
back the original text; and at every chunk boundary the remainder is
still over the limit and the chunk is the remainder's prefix up to the
chosen split index, which is the last newline at or before the limit
when that newline lies in the second half, and exactly the limit
otherwise. -/
theorem C4_sendTelegramMessage_split (text : List Char)
    (h : MAX_MESSAGE_LENGTH < text.length) :
    sendTelegramMessage text = splitMessageParts text
    ∧ (sendTelegramMessage text).join = text
    ∧ (∀ p ∈ sendTelegramMessage text, p.length ≤ MAX_MESSAGE_LENGTH)
    ∧ (∀ i, i + 1 < (sendTelegramMessage text).length →
        MAX_MESSAGE_LENGTH < (((sendTelegramMessage text).drop i).join).length
        ∧ (sendTelegramMessage text).getD i [] =
            (((sendTelegramMessage text).drop i).join).take
              (splitIndexOf (((sendTelegramMessage text).drop i).join)))
    ∧ (∀ r : List Char,
        (∃ j, MAX_MESSAGE_LENGTH / 2 ≤ j ∧ j ≤ MAX_MESSAGE_LENGTH ∧ r.getD j ' ' = '\n'
           ∧ (∀ k, j < k → k ≤ MAX_MESSAGE_LENGTH → r.getD k ' ' ≠ '\n') ∧ splitIndexOf r = j)
        ∨ (splitIndexOf r = MAX_MESSAGE_LENGTH
           ∧ ∀ j, j ≤ MAX_MESSAGE_LENGTH → r.getD j ' ' = '\n' →
               j < MAX_MESSAGE_LENGTH / 2)) := by
  have hsend : sendTelegramMessage text = splitMessageParts text := by
    simp [sendTelegramMessage, h]
  refine ⟨hsend, ?_, ?_, ?_, splitIndexOf_spec⟩
  · rw [hsend]; exact splitMessageParts_join text
  · rw [hsend]; exact splitMessageParts_le text.length text (le_refl _)
  · rw [hsend]; exact splitMessageParts_boundary text.length text (le_refl _)

/-- Witness for C4 at a concrete 5000-character text. -/
theorem C4_sendTelegramMessage_split_witness :
    MAX_MESSAGE_LENGTH < (List.replicate 5000 'a').length
    ∧ (sendTelegramMessage (List.replicate 5000 'a')).join = List.replicate 5000 'a' :=
  ⟨by rw [List.length_replicate]; norm_num [MAX_MESSAGE_LENGTH],
   (C4_sendTelegramMessage_split (List.replicate 5000 'a')
      (by rw [List.length_replicate]; norm_num [MAX_MESSAGE_LENGTH])).2.1⟩

/-! ### Single-send retry (`src/utils/telegram.ts`, `sendSingleMessage`)

The HTTP outcome of each attempt is a parameter `outcomes : Nat →
SendOutcome` (what `axios.post` does on attempt `n`).  The run is
modelled as the final result — `Except` for return/throw, carrying the
thrown error id, `none` standing for the impossible `undefined`
`lastError` — together with the ordered trace of attempts and sleeps. -/

/-- Outcome of one attempt: HTTP success, a 429 rate-limit error with
its `retry_after` seconds, or any other failure.  Errors are labelled by
an id so that "the last error is rethrown" is expressible. -/
inductive SendOutcome where
  | success : SendOutcome
  | rateLimited (err : Nat) (retryAfter : Nat) : SendOutcome
  | failure (err : Nat) : SendOutcome

/-- Trace events of a send: attempt numbers and sleeps (milliseconds). -/
inductive SendEv where
  | attempt (n : Nat) : SendEv
  | sleep (ms : Nat) : SendEv
deriving DecidableEq

/-- The retry loop body of `sendSingleMessage`, from loop counter
`attempt` with the currently recorded `lastError`:
`for (let attempt = 1; attempt <= MAX_RETRIES; attempt++)` with
rate-limited attempts sleeping `retry_after * 1000` and continuing,
other failures sleeping `RETRY_DELAY * 2^(attempt-1)` before the next
attempt and throwing on the last one, and `throw lastError` after the
loop. -/
def sendAttempts (outcomes : Nat → SendOutcome) (attempt : Nat) (lastError : Option Nat) :
    Except (Option Nat) Unit × List SendEv :=
  if MAX_RETRIES < attempt then (.error lastError, [])
  else
    match outcomes attempt with
    | .success => (.ok (), [.attempt attempt])
    | .rateLimited e ra =>
      let rest := sendAttempts outcomes (attempt + 1) (some e)
      (rest.1, .attempt attempt :: .sleep (ra * 1000) :: rest.2)
    | .failure e =>
      if attempt < MAX_RETRIES then
        let rest := sendAttempts outcomes (attempt + 1) (some e)
        (rest.1, .attempt attempt :: .sleep (RETRY_DELAY * 2 ^ (attempt - 1)) :: rest.2)
      else (.error (some e), [.attempt attempt])
termination_by MAX_RETRIES + 1 - attempt
decreasing_by
  all_goals omega

/-- `sendSingleMessage`: the retry loop started at attempt 1 with no
recorded error. -/
def sendSingleMessage (outcomes : Nat → SendOutcome) : Except (Option Nat) Unit × List SendEv :=
  sendAttempts outcomes 1 none

/-- Number of send attempts recorded in a trace. -/
def countAttempts (evs : List SendEv) : Nat :=
  (evs.filter fun e => match e with | .attempt _ => true | .sleep _ => false).length

theorem countAttempts_cons_attempt (n : Nat) (evs : List SendEv) :
    countAttempts (.attempt n :: evs) = countAttempts evs + 1 := by
  simp [countAttempts, List.filter]

theorem countAttempts_cons_sleep (ms : Nat) (evs : List SendEv) :
    countAttempts (.sleep ms :: evs) = countAttempts evs := by
  simp [countAttempts, List.filter]

theorem sendAttempts_countAttempts_le :
    ∀ n (outcomes : Nat → SendOutcome) (attempt : Nat) (lastError : Option Nat),
      MAX_RETRIES + 1 - attempt ≤ n →
      countAttempts (sendAttempts outcomes attempt lastError).2 ≤
        MAX_RETRIES + 1 - attempt := by
  intro n
  induction n with
  | zero =>
    intro o a le h
    have ha : MAX_RETRIES < a := by omega
    rw [sendAttempts]
    simp [ha, countAttempts]
  | succ n ih =>
    intro o a le h
    rw [sendAttempts]
    by_cases ha : MAX_RETRIES < a
    · simp [ha, countAttempts]
    · rw [if_neg ha]
      have ha' : a ≤ MAX_RETRIES := by omega
      cases ho : o a with
      | success =>
        simp [countAttempts]
        omega
      | rateLimited e ra =>
        have hrec := ih o (a + 1) (some e) (by omega)
        simp [countAttempts_cons_attempt, countAttempts_cons_sleep]
        omega
      | failure e =>
        by_cases hlt : a < MAX_RETRIES
        · have hrec := ih o (a + 1) (some e) (by omega)
          simp [hlt, countAttempts_cons_attempt, countAttempts_cons_sleep]
          omega
        · simp [hlt, countAttempts]
          omega

/-- C5: `sendSingleMessage` makes at most `MAX_RETRIES = 3` attempts for
any sequence of outcomes (rate-limited attempts included in the
ceiling); after a non-rate-limit failure on attempt `a < 3` it sleeps
`RETRY_DELAY * 2^(a-1)` milliseconds before the next attempt; and when
all attempts fail the error of the last attempt is thrown — both for
plain failures (thrown directly on the final attempt) and for
rate-limited runs (thrown as `lastError` after the loop). -/
theorem C5_sendSingleMessage_retry (outcomes : Nat → SendOutcome)
    (e1 e2 e3 r1 r2 r3 : Nat) :
    countAttempts (sendSingleMessage outcomes).2 ≤ MAX_RETRIES
    ∧ (outcomes 1 = .failure e1 → outcomes 2 = .failure e2 → outcomes 3 = .failure e3 →
        sendSingleMessage outcomes =
          (.error (some e3),
           [.attempt 1, .sleep (RETRY_DELAY * 2 ^ 0), .attempt 2,
            .sleep (RETRY_DELAY * 2 ^ 1), .attempt 3]))
    ∧ (outcomes 1 = .rateLimited e1 r1 → outcomes 2 = .rateLimited e2 r2 →
        outcomes 3 = .rateLimited e3 r3 →
        sendSingleMessage outcomes =
          (.error (some e3),
           [.attempt 1, .sleep (r1 * 1000), .attempt 2, .sleep (r2 * 1000),
            .attempt 3, .sleep (r3 * 1000)])) := by
  refine ⟨?_, ?_, ?_⟩
  · have := sendAttempts_countAttempts_le (MAX_RETRIES + 1) outcomes 1 none (by omega)
    simpa [sendSingleMessage, MAX_RETRIES] using this
  · intro h1 h2 h3
    have s3 : sendAttempts outcomes 3 (some e2) = (.error (some e3), [.attempt 3]) := by
      rw [sendAttempts]
      norm_num [MAX_RETRIES, h3]
    have s2 : sendAttempts outcomes 2 (some e1) =
        (.error (some e3), [.attempt 2, .sleep (RETRY_DELAY * 2 ^ 1), .attempt 3]) := by
      rw [sendAttempts]
      norm_num [MAX_RETRIES, h2, s3]
    show sendAttempts outcomes 1 none = _
    rw [sendAttempts]
    norm_num [MAX_RETRIES, h1, s2]
  · intro h1 h2 h3
    have s4 : sendAttempts outcomes 4 (some e3) = (.error (some e3), []) := by
      rw [sendAttempts]
      norm_num [MAX_RETRIES]
    have s3 : sendAttempts outcomes 3 (some e2) =
        (.error (some e3), [.attempt 3, .sleep (r3 * 1000)]) := by
      rw [sendAttempts]
      norm_num [MAX_RETRIES, h3, s4]
    have s2 : sendAttempts outcomes 2 (some e1) =
        (.error (some e3), [.attempt 2, .sleep (r2 * 1000), .attempt 3, .sleep (r3 * 1000)]) := by
      rw [sendAttempts]
      norm_num [MAX_RETRIES, h2, s3]
    show sendAttempts outcomes 1 none = _
    rw [sendAttempts]
    norm_num [MAX_RETRIES, h1, s2]

/-- Witness for C5: three consecutive failures labelled by their attempt
number end in the third error being thrown, after backoffs of 1000 and
2000 milliseconds. -/
theorem C5_sendSingleMessage_retry_witness :
    sendSingleMessage (fun n => .failure n) =
      (.error (some 3),
       [.attempt 1, .sleep (RETRY_DELAY * 2 ^ 0), .attempt 2,
        .sleep (RETRY_DELAY * 2 ^ 1), .attempt 3]) :=
  (C5_sendSingleMessage_retry (fun n => .failure n) 1 2 3 0 0 0).2.1 rfl rfl rfl

/-! ### The Notification Orchestrator (`src/services/notification.ts`)

`sendReleaseNotification` is modelled with its effectful dependencies as
parameters: the outcome of each enrichment call (`fetchReleaseDetails`,
`fetchPreviousRelease`, `generateChangelogFromCommits`, each an
`Except` whose `error` is a thrown rejection), the pure formatter
`formatReleaseMessage` (imported from `src/utils/telegram.ts`, here an
opaque function of the body since the claims do not depend on its
internals), and the delivery outcome of `sendTelegramMessage`.  The
ledger is passed as explicit state. -/

/-- The emptiness test of the source,
`!releaseData.body || releaseData.body.trim().length === 0`
(JavaScript `null`/`undefined` are `none`; the empty string is also
falsy and also blank after trimming). -/
def isBlankBody : Option String → Bool
  | none => true
  | some s => s.trim.length == 0

/-- Observable outcome of one `sendReleaseNotification` call: the text
handed to the Delivery Client, the settled result (`.ok true` for
`{ success: true }`, `.error e` for a rejection), and the ledger
afterwards. -/
structure NotificationRun where
  messageText : String
  result : Except Nat Bool
  ledger : List LEntry

/-- `sendReleaseNotification(payload, overrideChatId, source)`: enrich a
blank body via the release re-fetch, the previous-release lookup and the
commit comparison — any enrichment rejection is caught by the inner
`try/catch` and leaves the body unchanged — then format, deliver, and on
delivery success write the ledger entry; a delivery rejection is
logged and rethrown by the outer `catch`. -/
def sendReleaseNotification
    (formatReleaseMessage : Option String → String)
    (releaseBody : Option String)
    (fetchReleaseDetails : Except Nat (Option String))
    (fetchPreviousRelease : Except Nat (Option String))
    (generateChangelog : Except Nat (Option String))
    (delivery : Except Nat Unit)
    (ledger : List LEntry)
    (releaseId : Nat) (repoFullName tagName source : String) : NotificationRun :=
  let enriched : Option String :=
    if isBlankBody releaseBody then
      match fetchReleaseDetails with
      | .error _ => releaseBody
      | .ok fullBody =>
        if !isBlankBody fullBody then fullBody
        else
          match fetchPreviousRelease with
          | .error _ => releaseBody
          | .ok none => releaseBody
          | .ok (some _) =>
            match generateChangelog with
            | .error _ => releaseBody
            | .ok none => releaseBody
            | .ok (some cl) =>
              if cl.length == 0 then releaseBody
              else some ("Auto-generated changelog:\n\n" ++ cl)
    else releaseBody
  let message := formatReleaseMessage enriched
  match delivery with
  | .error e => ⟨message, .error e, ledger⟩
  | .ok _ =>
    ⟨message, .ok true, markReleaseProcessed ledger releaseId repoFullName tagName source⟩

/-- C6: for a blank release body, an error thrown by any of the three
enrichment calls is absorbed: the message is still the formatter applied
to the original body, delivery success still writes the ledger entry and
returns success, and the call only rejects when delivery itself
rejects. -/
theorem C6_enrichment_failure_absorbed
    (fmt : Option String → String) (body fdBody : Option String) (prevTag : String)
    (fd fp gc : Except Nat (Option String)) (e : Nat) (delivery : Except Nat Unit)
    (ledger : List LEntry) (releaseId : Nat) (repoFullName tagName source : String)
    (hblank : isBlankBody body = true) :
    (fd = .error e →
      (sendReleaseNotification fmt body fd fp gc delivery ledger releaseId repoFullName
          tagName source).messageText = fmt body
      ∧ (delivery = .ok () →
          (sendReleaseNotification fmt body fd fp gc delivery ledger releaseId repoFullName
              tagName source).result = .ok true
          ∧ (sendReleaseNotification fmt body fd fp gc delivery ledger releaseId repoFullName
              tagName source).ledger =
              markReleaseProcessed ledger releaseId repoFullName tagName source)
      ∧ (∀ e', (sendReleaseNotification fmt body fd fp gc delivery ledger releaseId
            repoFullName tagName source).result = .error e' → delivery = .error e'))
    ∧ (fd = .ok fdBody → isBlankBody fdBody = true → fp = .error e →
      (sendReleaseNotification fmt body fd fp gc delivery ledger releaseId repoFullName
          tagName source).messageText = fmt body
      ∧ (delivery = .ok () →
          (sendReleaseNotification fmt body fd fp gc delivery ledger releaseId repoFullName
              tagName source).result = .ok true
          ∧ (sendReleaseNotification fmt body fd fp gc delivery ledger releaseId repoFullName
              tagName source).ledger =
              markReleaseProcessed ledger releaseId repoFullName tagName source)
      ∧ (∀ e', (sendReleaseNotification fmt body fd fp gc delivery ledger releaseId
            repoFullName tagName source).result = .error e' → delivery = .error e'))
    ∧ (fd = .ok fdBody → isBlankBody fdBody = true → fp = .ok (some prevTag) →
        gc = .error e →
      (sendReleaseNotification fmt body fd fp gc delivery ledger releaseId repoFullName
          tagName source).messageText = fmt body
      ∧ (delivery = .ok () →
          (sendReleaseNotification fmt body fd fp gc delivery ledger releaseId repoFullName
              tagName source).result = .ok true
          ∧ (sendReleaseNotification fmt body fd fp gc delivery ledger releaseId repoFullName
              tagName source).ledger =
              markReleaseProcessed ledger releaseId repoFullName tagName source)
      ∧ (∀ e', (sendReleaseNotification fmt body fd fp gc delivery ledger releaseId
            repoFullName tagName source).result = .error e' → delivery = .error e')) := by
  refine ⟨?_, ?_, ?_⟩
  · intro hfd
    subst hfd
    cases delivery with
    | error ed =>
      refine ⟨by simp [sendReleaseNotification, hblank], by simp, ?_⟩
      intro e' he'
      simp [sendReleaseNotification, hblank] at he'
      simp [he']
    | ok u =>
      cases u
      exact ⟨by simp [sendReleaseNotification, hblank],
        fun _ => ⟨by simp [sendReleaseNotification, hblank],
          by simp [sendReleaseNotification, hblank]⟩,
        fun e' he' => by simp [sendReleaseNotification, hblank] at he'⟩
  · intro hfd hfdblank hfp
    subst hfd
    subst hfp
    cases delivery with
    | error ed =>
      refine ⟨by simp [sendReleaseNotification, hblank, hfdblank], by simp, ?_⟩
      intro e' he'
      simp [sendReleaseNotification, hblank, hfdblank] at he'
      simp [he']
    | ok u =>
      cases u
      exact ⟨by simp [sendReleaseNotification, hblank, hfdblank],
        fun _ => ⟨by simp [sendReleaseNotification, hblank, hfdblank],
          by simp [sendReleaseNotification, hblank, hfdblank]⟩,
        fun e' he' => by simp [sendReleaseNotification, hblank, hfdblank] at he'⟩
  · intro hfd hfdblank hfp hgc
    subst hfd
    subst hfp
    subst hgc
    cases delivery with
    | error ed =>
      refine ⟨by simp [sendReleaseNotification, hblank, hfdblank], by simp, ?_⟩
      intro e' he'
      simp [sendReleaseNotification, hblank, hfdblank] at he'
      simp [he']
    | ok u =>
      cases u
      exact ⟨by simp [sendReleaseNotification, hblank, hfdblank],
        fun _ => ⟨by simp [sendReleaseNotification, hblank, hfdblank],
          by simp [sendReleaseNotification, hblank, hfdblank]⟩,
        fun e' he' => by simp [sendReleaseNotification, hblank, hfdblank] at he'⟩

/-- Witness for C6: a release with `null` body, a failing release
re-fetch and a successful delivery still ends in success with the ledger
entry written and the message formatted from the original body. -/
theorem C6_enrichment_failure_absorbed_witness :
    (sendReleaseNotification (fun b => (b.getD "none")) none (.error 5) (.ok none) (.ok none)
        (.ok ()) [] 9 "octo/hello" "v2.0.0" "webhook").result = .ok true
    ∧ (sendReleaseNotification (fun b => (b.getD "none")) none (.error 5) (.ok none) (.ok none)
        (.ok ()) [] 9 "octo/hello" "v2.0.0" "webhook").ledger =
        markReleaseProcessed [] 9 "octo/hello" "v2.0.0" "webhook" :=
  ((C6_enrichment_failure_absorbed (fun b => (b.getD "none")) none none "prev" (.error 5)
      (.ok none) (.ok none) 5 (.ok ()) [] 9 "octo/hello" "v2.0.0" "webhook" (by decide)).1
    rfl).2.1 rfl

/-! ### Changelog generation (`src/utils/github.ts`, `generateChangelogFromCommits`)

The successful path after the compare call: slice the commits to 20,
return the fixed placeholder on zero commits, otherwise render one
bullet line per commit and join with newlines.  Strings are `List Char`;
`message.split('\n')[0]` is the prefix before the first newline. -/

/-- The fields used per commit: `commit.commit.message` and `commit.sha`. -/
structure CommitInfo where
  message : List Char
  sha : List Char
deriving DecidableEq

/-- `commit.commit.message.split('\n')[0]`. -/
def firstLineOf (message : List Char) : List Char :=
  message.takeWhile fun c => c != '\n'

/-- One rendered bullet: `• ${message} (${shortSha})` with
`shortSha = commit.sha.substring(0, 7)`. -/
def renderCommitLine (c : CommitInfo) : List Char :=
  ['•', ' '] ++ firstLineOf c.message ++ [' ', '('] ++ c.sha.take 7 ++ [')']

/-- The `changelogLines` array of the source: one line per sliced commit. -/
def changelogLines (commits : List CommitInfo) : List (List Char) :=
  (commits.take 20).map renderCommitLine

/-- `Array.prototype.join('\n')`. -/
def joinNl : List (List Char) → List Char
  | [] => []
  | [l] => l
  | l :: ls => l ++ '\n' :: joinNl ls

/-- The fixed zero-commit placeholder. -/
def NO_COMMITS_PLACEHOLDER : List Char := "No commits found for this release.".data

/-- `generateChangelogFromCommits` on the commits the compare call
returned. -/
def generateChangelogFromCommits (commits : List CommitInfo) : List Char :=
  if (commits.take 20).length = 0 then NO_COMMITS_PLACEHOLDER
  else joinNl (changelogLines commits)

theorem joinNl_cons_ne_nil (l : List Char) (ls : List (List Char)) (h : l ≠ []) :
    joinNl (l :: ls) ≠ [] := by
  cases ls with
  | nil => simpa [joinNl] using h
  | cons l' ls' =>
    simp only [joinNl]
    intro hcontr
    rcases List.append_eq_nil.mp hcontr with ⟨h1, h2⟩
    exact h h1

/-- C7: the generator uses at most the first 20 commits; zero commits
give the fixed placeholder and never the empty string; the result is
never empty; there is exactly one line per taken commit
(`min commits.length 20` lines, joined by newlines); and every rendered
line is a bullet ending in `(<short hash>)`, where the short hash is the
7-character `sha.substring(0, 7)` whenever the sha has at least 7
characters. -/
theorem C7_generateChangelogFromCommits (commits : List CommitInfo) :
    generateChangelogFromCommits commits = generateChangelogFromCommits (commits.take 20)
    ∧ generateChangelogFromCommits [] = NO_COMMITS_PLACEHOLDER
    ∧ (commits = [] → generateChangelogFromCommits commits = NO_COMMITS_PLACEHOLDER)
    ∧ generateChangelogFromCommits commits ≠ []
    ∧ (changelogLines commits).length = min commits.length 20
    ∧ (commits ≠ [] →
        generateChangelogFromCommits commits = joinNl (changelogLines commits))
    ∧ (∀ c ∈ commits.take 20, ∃ pre : List Char,
        renderCommitLine c = '•' :: ' ' :: (pre ++ '(' :: (c.sha.take 7 ++ [')']))
        ∧ (7 ≤ c.sha.length → (c.sha.take 7).length = 7)) := by
  refine ⟨?_, by simp [generateChangelogFromCommits, NO_COMMITS_PLACEHOLDER], ?_, ?_, ?_, ?_, ?_⟩
  · simp [generateChangelogFromCommits, changelogLines, List.take_take]
  · intro h
    subst h
    simp [generateChangelogFromCommits]
  · unfold generateChangelogFromCommits
    by_cases h : (commits.take 20).length = 0
    · simp [h]
      decide
    · rw [if_neg h]
      cases h20 : commits.take 20 with
      | nil => simp [h20] at h
      | cons c cs =>
        have : changelogLines commits = renderCommitLine c :: cs.map renderCommitLine := by
          simp [changelogLines, h20]
        rw [this]
        exact joinNl_cons_ne_nil _ _ (by simp [renderCommitLine])
  · simp [changelogLines, List.length_take, Nat.min_comm]
  · intro h
    have hlen : commits.length ≠ 0 := fun hc => h (List.length_eq_zero.mp hc)
    have hne : (commits.take 20).length ≠ 0 := by
      simp only [List.length_take]
      omega
    rw [generateChangelogFromCommits, if_neg hne]
  · intro c _
    refine ⟨firstLineOf c.message ++ [' '], ?_, ?_⟩
    · simp [renderCommitLine]
    · intro h7
      simp [List.length_take]
      omega

/-- Witness for C7 on a single commit with a 40-character sha. -/
theorem C7_generateChangelogFromCommits_witness :
    ("Fix parser bug\nDetails below".data ≠ ([] : List Char))
    ∧ generateChangelogFromCommits
        [⟨"Fix parser bug\nDetails below".data, "0123456789abcdef0123456789abcdef01234567".data⟩] =
        joinNl (changelogLines
          [⟨"Fix parser bug\nDetails below".data, "0123456789abcdef0123456789abcdef01234567".data⟩]) :=
  ⟨by decide,
   (C7_generateChangelogFromCommits
      [⟨"Fix parser bug\nDetails below".data,
        "0123456789abcdef0123456789abcdef01234567".data⟩]).2.2.2.2.2.1 (by decide)⟩

/-! ### The Repository Directory (`src/storage/database.ts`, table `repositories`)

The table is modelled as the list of its rows.  SQLite booleans are the
stored integers `0`/`1`; nullable columns are `Option`.
`CURRENT_TIMESTAMP` is an explicit `now` argument. -/

/-- A row of `repositories`, one field per column of `initDatabase`. -/
structure RepoRow where
  id : Nat
  full_name : String
  owner : String
  name : String
  description : Option String
  privateFlag : Nat
  fork : Nat
  archived : Nat
  disabled : Nat
  default_branch : String
  url : String
  profile_owner : String
  chat_id : Option String
  webhook_id : Option Nat
  webhook_status : String
  last_synced_at : Option String
  created_at : String
  updated_at : String
  pushed_at : String
  discovered_at : String
deriving DecidableEq

/-- The `RepositoryInput` handed to `upsertRepository` by the Discovery
Service. -/
structure RepositoryInput where
  id : Nat
  fullName : String
  owner : String
  name : String
  description : Option String
  privateFlag : Bool
  fork : Bool
  archived : Bool
  disabled : Bool
  defaultBranch : String
  url : String
  profileOwner : String
  chatId : Option String
  createdAt : String
  updatedAt : String
  pushedAt : String
deriving DecidableEq

/-- `upsertRepository(repo)`: `INSERT ... ON CONFLICT(full_name) DO
UPDATE SET description, archived, disabled, default_branch, chat_id,
updated_at, pushed_at`.  The insert names no push-registration column,
so the schema defaults apply: `webhook_status DEFAULT 'pending'`,
`webhook_id`/`last_synced_at` NULL, `discovered_at DEFAULT
CURRENT_TIMESTAMP`. -/
def upsertRepository (rows : List RepoRow) (repo : RepositoryInput) (now : String) :
    List RepoRow :=
  if rows.any fun r => r.full_name == repo.fullName then
    rows.map fun r =>
      if r.full_name == repo.fullName then
        { r with
          description := repo.description,
          archived := if repo.archived then 1 else 0,
          disabled := if repo.disabled then 1 else 0,
          default_branch := repo.defaultBranch,
          chat_id := repo.chatId,
          updated_at := repo.updatedAt,
          pushed_at := repo.pushedAt }
      else r
  else
    rows ++ [{ id := repo.id, full_name := repo.fullName, owner := repo.owner,
               name := repo.name, description := repo.description,
               privateFlag := if repo.privateFlag then 1 else 0,
               fork := if repo.fork then 1 else 0,
               archived := if repo.archived then 1 else 0,
               disabled := if repo.disabled then 1 else 0,
               default_branch := repo.defaultBranch, url := repo.url,
               profile_owner := repo.profileOwner, chat_id := repo.chatId,
               webhook_id := none, webhook_status := "pending",
               last_synced_at := none, created_at := repo.createdAt,
               updated_at := repo.updatedAt, pushed_at := repo.pushedAt,
               discovered_at := now }]

/-- `updateWebhookStatus(fullName, webhookId, status)`:
`UPDATE repositories SET webhook_id = ?, webhook_status = ?,
last_synced_at = CURRENT_TIMESTAMP WHERE full_name = ?`. -/
def updateWebhookStatus (rows : List RepoRow) (fullName : String) (webhookId : Option Nat)
    (status : String) (now : String) : List RepoRow :=
  rows.map fun r =>
    if r.full_name == fullName then
      { r with webhook_id := webhookId, webhook_status := status, last_synced_at := some now }
    else r

/-- `getRepositoriesByWebhookStatus(status)`:
`SELECT * FROM repositories WHERE webhook_status = ?`. -/
def getRepositoriesByWebhookStatus (rows : List RepoRow) (status : String) : List RepoRow :=
  rows.filter fun r => r.webhook_status == status

/-! ### The Poll Scheduler (`src/services/polling.ts`)

`checkRepositoryForNewReleases` iterates over the fetched releases of
one repository, skipping drafts and already-ledgered releases, invoking
the Notification Orchestrator for the rest; the orchestrator's delivery
outcome per release id is the `notifyOk` parameter (on success the
orchestrator writes the ledger entry, on failure the error is counted
and the ledger is untouched).  The function returns the final ledger and
the ids it invoked the orchestrator for, in order. -/

/-- The release fields used by the polling loop. -/
structure PollRelease where
  id : Nat
  draft : Bool
  tagName : String
deriving DecidableEq

/-- The per-repository polling loop. -/
def checkRepositoryForNewReleases (fullName : String) (notifyOk : Nat → Bool) :
    List PollRelease → List LEntry → List LEntry × List Nat
  | [], ledger => (ledger, [])
  | r :: rest, ledger =>
    if r.draft then checkRepositoryForNewReleases fullName notifyOk rest ledger
    else if isReleaseProcessed ledger r.id fullName then
      checkRepositoryForNewReleases fullName notifyOk rest ledger
    else
      let ledger' := if notifyOk r.id then
          markReleaseProcessed ledger r.id fullName r.tagName "polling"
        else ledger
      let next := checkRepositoryForNewReleases fullName notifyOk rest ledger'
      (next.1, r.id :: next.2)

theorem isReleaseProcessed_mark_mono (ledger : List LEntry) (rid : Nat) (fn : String)
    (rid' : Nat) (fn' tag src : String) (h : isReleaseProcessed ledger rid fn = true) :
    isReleaseProcessed (markReleaseProcessed ledger rid' fn' tag src) rid fn = true := by
  unfold markReleaseProcessed
  split
  · exact h
  · unfold isReleaseProcessed at h ⊢
    rw [List.any_append]
    simp [h]

theorem checkRepository_skips :
    ∀ (releases : List PollRelease) (fullName : String) (notifyOk : Nat → Bool)
      (ledger : List LEntry),
      (∀ rid ∈ (checkRepositoryForNewReleases fullName notifyOk releases ledger).2,
        ∃ rel, rel ∈ releases ∧ rel.id = rid ∧ rel.draft = false
          ∧ isReleaseProcessed ledger rid fullName = false)
      ∧ (∀ rid, isReleaseProcessed ledger rid fullName = true →
          rid ∉ (checkRepositoryForNewReleases fullName notifyOk releases ledger).2) := by
  intro releases
  induction releases with
  | nil =>
    intro fullName notifyOk ledger
    constructor
    · intro rid hrid
      simp [checkRepositoryForNewReleases] at hrid
    · intro rid _
      simp [checkRepositoryForNewReleases]
  | cons r rest ih =>
    intro fullName notifyOk ledger
    by_cases hdraft : r.draft = true
    · have heq : checkRepositoryForNewReleases fullName notifyOk (r :: rest) ledger =
          checkRepositoryForNewReleases fullName notifyOk rest ledger := by
        simp [checkRepositoryForNewReleases, hdraft]
      rw [heq]
      obtain ⟨ih1, ih2⟩ := ih fullName notifyOk ledger
      constructor
      · intro rid hrid
        obtain ⟨rel, hmem, h⟩ := ih1 rid hrid
        exact ⟨rel, List.mem_cons_of_mem _ hmem, h⟩
      · exact ih2
    · have hdraft' : r.draft = false := by simpa using hdraft
      by_cases hproc : isReleaseProcessed ledger r.id fullName = true
      · have heq : checkRepositoryForNewReleases fullName notifyOk (r :: rest) ledger =
            checkRepositoryForNewReleases fullName notifyOk rest ledger := by
          simp [checkRepositoryForNewReleases, hdraft, hproc]
        rw [heq]
        obtain ⟨ih1, ih2⟩ := ih fullName notifyOk ledger
        constructor
        · intro rid hrid
          obtain ⟨rel, hmem, h⟩ := ih1 rid hrid
          exact ⟨rel, List.mem_cons_of_mem _ hmem, h⟩
        · exact ih2
      · have hproc' : isReleaseProcessed ledger r.id fullName = false := by simpa using hproc
        set ledger' := if notifyOk r.id then
            markReleaseProcessed ledger r.id fullName r.tagName "polling"
          else ledger with hledger'
        have hmono : ∀ rid, isReleaseProcessed ledger rid fullName = true →
            isReleaseProcessed ledger' rid fullName = true := by
          intro rid hr
          rw [hledger']
          split
          · exact isReleaseProcessed_mark_mono ledger rid fullName r.id fullName r.tagName
              "polling" hr
          · exact hr
        have heq : checkRepositoryForNewReleases fullName notifyOk (r :: rest) ledger =
            ((checkRepositoryForNewReleases fullName notifyOk rest ledger').1,
              r.id :: (checkRepositoryForNewReleases fullName notifyOk rest ledger').2) := by
          rw [checkRepositoryForNewReleases]
          simp [hdraft, hproc]
        rw [heq]
        obtain ⟨ih1, ih2⟩ := ih fullName notifyOk ledger'
        constructor
        · intro rid hrid
          rcases List.mem_cons.mp hrid with hhead | htail
          · exact ⟨r, List.mem_cons_self r rest, hhead.symm, hdraft', hhead ▸ hproc'⟩
          · obtain ⟨rel, hmem, hid, hd, hp⟩ := ih1 rid htail
            refine ⟨rel, List.mem_cons_of_mem _ hmem, hid, hd, ?_⟩
            by_cases hl : isReleaseProcessed ledger rid fullName = true
            · rw [hmono rid hl] at hp
              cases hp
            · simpa using hl
        · intro rid hrid
          intro hmem
          rcases List.mem_cons.mp hmem with hhead | htail
          · exact hproc (hhead ▸ hrid)
          · exact ih2 rid (hmono rid hrid) htail

/-- C8: a repository is selected by the poll cycle's query exactly when
its push-registration status is `unsupported` — a row with status
`active`, `pending` or `failed` is never selected, a row with status
`unsupported` always is, regardless of its other fields — and within a
polled repository every release the orchestrator is invoked for is
non-draft and was not in the Dedup Ledger, while draft or
already-ledgered releases are skipped. -/
theorem C8_poll_selection_and_skip (rows : List RepoRow) (r : RepoRow) (fullName : String)
    (notifyOk : Nat → Bool) (releases : List PollRelease) (ledger : List LEntry) (rid : Nat) :
    (r ∈ getRepositoriesByWebhookStatus rows "unsupported" ↔
       r ∈ rows ∧ r.webhook_status = "unsupported")
    ∧ (r.webhook_status = "active" ∨ r.webhook_status = "pending" ∨
        r.webhook_status = "failed" →
        r ∉ getRepositoriesByWebhookStatus rows "unsupported")
    ∧ (r ∈ rows → r.webhook_status = "unsupported" →
        r ∈ getRepositoriesByWebhookStatus rows "unsupported")
    ∧ (rid ∈ (checkRepositoryForNewReleases fullName notifyOk releases ledger).2 →
        ∃ rel, rel ∈ releases ∧ rel.id = rid ∧ rel.draft = false
          ∧ isReleaseProcessed ledger rid fullName = false)
    ∧ (isReleaseProcessed ledger rid fullName = true →
        rid ∉ (checkRepositoryForNewReleases fullName notifyOk releases ledger).2) := by
  have hmem : r ∈ getRepositoriesByWebhookStatus rows "unsupported" ↔
      r ∈ rows ∧ r.webhook_status = "unsupported" := by
    simp [getRepositoriesByWebhookStatus, List.mem_filter]
  refine ⟨hmem, ?_, ?_, ?_, ?_⟩
  · intro hst hsel
    have := (hmem.mp hsel).2
    rcases hst with h | h | h <;> rw [h] at this <;> simp at this
  · intro hrow hst
    exact hmem.mpr ⟨hrow, hst⟩
  · exact (checkRepository_skips releases fullName notifyOk ledger).1 rid
  · exact (checkRepository_skips releases fullName notifyOk ledger).2 rid

/-- Witness for C8: an `active` row is not selected, an `unsupported`
row is. -/
theorem C8_poll_selection_and_skip_witness :
    (⟨1, "o/a", "o", "a", none, 0, 0, 0, 0, "main", "u", "o", none, none, "active",
        none, "c", "u", "p", "d"⟩ : RepoRow) ∉
      getRepositoriesByWebhookStatus
        [⟨1, "o/a", "o", "a", none, 0, 0, 0, 0, "main", "u", "o", none, none, "active",
            none, "c", "u", "p", "d"⟩,
         ⟨2, "o/b", "o", "b", none, 1, 1, 1, 1, "main", "u", "o", none, none, "unsupported",
            none, "c", "u", "p", "d"⟩] "unsupported"
    ∧ (⟨2, "o/b", "o", "b", none, 1, 1, 1, 1, "main", "u", "o", none, none, "unsupported",
          none, "c", "u", "p", "d"⟩ : RepoRow) ∈
      getRepositoriesByWebhookStatus
        [⟨1, "o/a", "o", "a", none, 0, 0, 0, 0, "main", "u", "o", none, none, "active",
            none, "c", "u", "p", "d"⟩,
         ⟨2, "o/b", "o", "b", none, 1, 1, 1, 1, "main", "u", "o", none, none, "unsupported",
            none, "c", "u", "p", "d"⟩] "unsupported" :=
  ⟨(C8_poll_selection_and_skip
      [⟨1, "o/a", "o", "a", none, 0, 0, 0, 0, "main", "u", "o", none, none, "active",
          none, "c", "u", "p", "d"⟩,
       ⟨2, "o/b", "o", "b", none, 1, 1, 1, 1, "main", "u", "o", none, none, "unsupported",
          none, "c", "u", "p", "d"⟩]
      ⟨1, "o/a", "o", "a", none, 0, 0, 0, 0, "main", "u", "o", none, none, "active",
          none, "c", "u", "p", "d"⟩ "x" (fun _ => true) [] [] 0).2.1 (Or.inl rfl),
   (C8_poll_selection_and_skip
      [⟨1, "o/a", "o", "a", none, 0, 0, 0, 0, "main", "u", "o", none, none, "active",
          none, "c", "u", "p", "d"⟩,
       ⟨2, "o/b", "o", "b", none, 1, 1, 1, 1, "main", "u", "o", none, none, "unsupported",
          none, "c", "u", "p", "d"⟩]
      ⟨2, "o/b", "o", "b", none, 1, 1, 1, 1, "main", "u", "o", none, none, "unsupported",
          none, "c", "u", "p", "d"⟩ "x" (fun _ => true) [] [] 0).2.2.1 (by decide) rfl⟩

theorem getD_map_repo (f : RepoRow → RepoRow) (l : List RepoRow) (i : Nat) (d : RepoRow) :
    (l.map f).getD i d = if h : i < l.length then f (l.getD i d) else d := by
  by_cases h : i < l.length
  · rw [dif_pos h, List.getD_eq_getElem (l.map f) d (by simpa using h),
      List.getD_eq_getElem l d h]
    simp
  · rw [dif_neg h, List.getD_eq_default (l.map f) d (by simp [List.length_map]; omega)]

/-- C9: on a conflicting upsert, only the mutable columns of the
matching row change — its identity columns, its push-registration
columns and all other rows are untouched; and `updateWebhookStatus`
writes exactly the three push-registration columns of the named row,
leaving every other column and every other row unchanged. -/
theorem C9_directory_frame (rows : List RepoRow) (repo : RepositoryInput)
    (now fullName : String) (wid : Option Nat) (status ts : String) :
    ((rows.any fun r => r.full_name == repo.fullName) = true →
      (upsertRepository rows repo now).length = rows.length
      ∧ ∀ i d,
        ((upsertRepository rows repo now).getD i d).id = (rows.getD i d).id
        ∧ ((upsertRepository rows repo now).getD i d).full_name = (rows.getD i d).full_name
        ∧ ((upsertRepository rows repo now).getD i d).owner = (rows.getD i d).owner
        ∧ ((upsertRepository rows repo now).getD i d).name = (rows.getD i d).name
        ∧ ((upsertRepository rows repo now).getD i d).profile_owner =
            (rows.getD i d).profile_owner
        ∧ ((upsertRepository rows repo now).getD i d).privateFlag = (rows.getD i d).privateFlag
        ∧ ((upsertRepository rows repo now).getD i d).fork = (rows.getD i d).fork
        ∧ ((upsertRepository rows repo now).getD i d).url = (rows.getD i d).url
        ∧ ((upsertRepository rows repo now).getD i d).created_at = (rows.getD i d).created_at
        ∧ ((upsertRepository rows repo now).getD i d).webhook_id = (rows.getD i d).webhook_id
        ∧ ((upsertRepository rows repo now).getD i d).webhook_status =
            (rows.getD i d).webhook_status
        ∧ ((upsertRepository rows repo now).getD i d).last_synced_at =
            (rows.getD i d).last_synced_at
        ∧ ((upsertRepository rows repo now).getD i d).discovered_at =
            (rows.getD i d).discovered_at
        ∧ ((rows.getD i d).full_name ≠ repo.fullName →
            (upsertRepository rows repo now).getD i d = rows.getD i d)
        ∧ (i < rows.length → (rows.getD i d).full_name = repo.fullName →
            ((upsertRepository rows repo now).getD i d).description = repo.description
            ∧ ((upsertRepository rows repo now).getD i d).archived =
                (if repo.archived then 1 else 0)
            ∧ ((upsertRepository rows repo now).getD i d).disabled =
                (if repo.disabled then 1 else 0)
            ∧ ((upsertRepository rows repo now).getD i d).default_branch = repo.defaultBranch
            ∧ ((upsertRepository rows repo now).getD i d).chat_id = repo.chatId
            ∧ ((upsertRepository rows repo now).getD i d).updated_at = repo.updatedAt
            ∧ ((upsertRepository rows repo now).getD i d).pushed_at = repo.pushedAt))
    ∧ ((updateWebhookStatus rows fullName wid status ts).length = rows.length
      ∧ ∀ i d,
        ((updateWebhookStatus rows fullName wid status ts).getD i d).id = (rows.getD i d).id
        ∧ ((updateWebhookStatus rows fullName wid status ts).getD i d).full_name =
            (rows.getD i d).full_name
        ∧ ((updateWebhookStatus rows fullName wid status ts).getD i d).owner =
            (rows.getD i d).owner
        ∧ ((updateWebhookStatus rows fullName wid status ts).getD i d).name =
            (rows.getD i d).name
        ∧ ((updateWebhookStatus rows fullName wid status ts).getD i d).description =
            (rows.getD i d).description
        ∧ ((updateWebhookStatus rows fullName wid status ts).getD i d).privateFlag =
            (rows.getD i d).privateFlag
        ∧ ((updateWebhookStatus rows fullName wid status ts).getD i d).fork =
            (rows.getD i d).fork
        ∧ ((updateWebhookStatus rows fullName wid status ts).getD i d).archived =
            (rows.getD i d).archived
        ∧ ((updateWebhookStatus rows fullName wid status ts).getD i d).disabled =
            (rows.getD i d).disabled
        ∧ ((updateWebhookStatus rows fullName wid status ts).getD i d).default_branch =
            (rows.getD i d).default_branch
        ∧ ((updateWebhookStatus rows fullName wid status ts).getD i d).url =
            (rows.getD i d).url
        ∧ ((updateWebhookStatus rows fullName wid status ts).getD i d).profile_owner =
            (rows.getD i d).profile_owner
        ∧ ((updateWebhookStatus rows fullName wid status ts).getD i d).chat_id =
            (rows.getD i d).chat_id
        ∧ ((updateWebhookStatus rows fullName wid status ts).getD i d).created_at =
            (rows.getD i d).created_at
        ∧ ((updateWebhookStatus rows fullName wid status ts).getD i d).updated_at =
            (rows.getD i d).updated_at
        ∧ ((updateWebhookStatus rows fullName wid status ts).getD i d).pushed_at =
            (rows.getD i d).pushed_at
        ∧ ((updateWebhookStatus rows fullName wid status ts).getD i d).discovered_at =
            (rows.getD i d).discovered_at
        ∧ ((rows.getD i d).full_name ≠ fullName →
            (updateWebhookStatus rows fullName wid status ts).getD i d = rows.getD i d)
        ∧ (i < rows.length → (rows.getD i d).full_name = fullName →
            ((updateWebhookStatus rows fullName wid status ts).getD i d).webhook_id = wid
            ∧ ((updateWebhookStatus rows fullName wid status ts).getD i d).webhook_status =
                status
            ∧ ((updateWebhookStatus rows fullName wid status ts).getD i d).last_synced_at =
                some ts)) := by
  constructor
  · intro hmem
    have hup : upsertRepository rows repo now = rows.map fun r =>
        if r.full_name == repo.fullName then
          { r with
            description := repo.description,
            archived := if repo.archived then 1 else 0,
            disabled := if repo.disabled then 1 else 0,
            default_branch := repo.defaultBranch,
            chat_id := repo.chatId,
            updated_at := repo.updatedAt,
            pushed_at := repo.pushedAt }
        else r := by
      rw [upsertRepository, if_pos hmem]
    constructor
    · rw [hup, List.length_map]
    · intro i d
      rw [hup, getD_map_repo]
      by_cases hi : i < rows.length
      · rw [dif_pos hi]
        have hgetd : rows.getD i d = rows[i] := List.getD_eq_getElem rows d hi
        rw [hgetd]
        by_cases hname : rows[i].full_name = repo.fullName
        · simp [hname, hi]
        · simp [hname]
      · rw [dif_neg hi]
        have hr : rows.getD i d = d := List.getD_eq_default rows d (by omega)
        rw [hr]
        simp [hi]
  · constructor
    · rw [updateWebhookStatus, List.length_map]
    · intro i d
      rw [updateWebhookStatus, getD_map_repo]
      by_cases hi : i < rows.length
      · rw [dif_pos hi]
        have hgetd : rows.getD i d = rows[i] := List.getD_eq_getElem rows d hi
        rw [hgetd]
        by_cases hname : rows[i].full_name = fullName
        · simp [hname, hi]
        · simp [hname]
      · rw [dif_neg hi]
        have hr : rows.getD i d = d := List.getD_eq_default rows d (by omega)
        rw [hr]
        simp [hi]

/-- Witness for C9 on a one-row directory whose row conflicts with the
upsert input: its push-registration status is untouched. -/
theorem C9_directory_frame_witness :
    ((upsertRepository
        [⟨1, "o/a", "o", "a", none, 0, 0, 0, 0, "main", "u", "o", none, some 11, "active",
            some "t", "c", "u", "p", "d"⟩]
        ⟨1, "o/a", "o", "a", some "desc", false, false, true, false, "dev", "u", "o",
            some "chat", "c2", "u2", "p2"⟩ "now").getD 0
        ⟨0, "", "", "", none, 0, 0, 0, 0, "", "", "", none, none, "", none, "", "", "", ""⟩).webhook_status =
      (([⟨1, "o/a", "o", "a", none, 0, 0, 0, 0, "main", "u", "o", none, some 11, "active",
            some "t", "c", "u", "p", "d"⟩] : List RepoRow).getD 0
        ⟨0, "", "", "", none, 0, 0, 0, 0, "", "", "", none, none, "", none, "", "", "", ""⟩).webhook_status :=
  (((C9_directory_frame
      [⟨1, "o/a", "o", "a", none, 0, 0, 0, 0, "main", "u", "o", none, some 11, "active",
          some "t", "c", "u", "p", "d"⟩]
      ⟨1, "o/a", "o", "a", some "desc", false, false, true, false, "dev", "u", "o",
          some "chat", "c2", "u2", "p2"⟩ "now" "x" none "y" "z").1 (by decide)).2 0
    ⟨0, "", "", "", none, 0, 0, 0, 0, "", "", "", none, none, "", none, "", "", "", ""⟩).2.2.2.2.2.2.2.2.2.2.1

/-- C10: a non-conflicting upsert appends exactly one new row whose
push-registration status is the schema default `pending`; rows with
status `pending` are never returned by the poll cycle's
`unsupported`-only query, so a freshly discovered repository is not
selected by the poll fallback, and the directory's poll selection is
unchanged by the insert. -/
theorem C10_new_row_pending_not_polled (rows : List RepoRow) (repo : RepositoryInput)
    (now : String) (r : RepoRow)
    (hnew : (rows.any fun r => r.full_name == repo.fullName) = false) :
    (∃ newRow : RepoRow,
      upsertRepository rows repo now = rows ++ [newRow]
      ∧ newRow.webhook_status = "pending"
      ∧ newRow.webhook_id = none
      ∧ newRow.last_synced_at = none)
    ∧ getRepositoriesByWebhookStatus (upsertRepository rows repo now) "unsupported" =
        getRepositoriesByWebhookStatus rows "unsupported"
    ∧ (r ∈ getRepositoriesByWebhookStatus rows "unsupported" →
        r.webhook_status ≠ "pending") := by
  have hup : upsertRepository rows repo now = rows ++
      [{ id := repo.id, full_name := repo.fullName, owner := repo.owner,
         name := repo.name, description := repo.description,
         privateFlag := if repo.privateFlag then 1 else 0,
         fork := if repo.fork then 1 else 0,
         archived := if repo.archived then 1 else 0,
         disabled := if repo.disabled then 1 else 0,
         default_branch := repo.defaultBranch, url := repo.url,
         profile_owner := repo.profileOwner, chat_id := repo.chatId,
         webhook_id := none, webhook_status := "pending",
         last_synced_at := none, created_at := repo.createdAt,
         updated_at := repo.updatedAt, pushed_at := repo.pushedAt,
         discovered_at := now }] := by
    rw [upsertRepository, if_neg (by simp [hnew])]
  refine ⟨⟨_, hup, rfl, rfl, rfl⟩, ?_, ?_⟩
  · rw [hup]
    simp [getRepositoriesByWebhookStatus, List.filter_append]
  · intro hmem
    have := List.mem_filter.mp hmem
    have hst : r.webhook_status = "unsupported" := by simpa using this.2
    simp [hst]

/-- Witness for C10 on an empty directory. -/
theorem C10_new_row_pending_not_polled_witness :
    getRepositoriesByWebhookStatus
        (upsertRepository []
          ⟨1, "o/a", "o", "a", none, false, false, false, false, "main", "u", "o", none,
              "c", "u", "p"⟩ "now") "unsupported" =
      getRepositoriesByWebhookStatus [] "unsupported" :=
  (C10_new_row_pending_not_polled []
    ⟨1, "o/a", "o", "a", none, false, false, false, false, "main", "u", "o", none,
        "c", "u", "p"⟩ "now"
    ⟨0, "", "", "", none, 0, 0, 0, 0, "", "", "", none, none, "", none, "", "", "", ""⟩
    (by decide)).2.1

end ReleaseBot
